import Mathlib

/-!
Verification of the Cryptic Crossings game core.

This file gives a shallow embedding of the two algorithmic engines of the
repository and the session controller glue, and proves the specified
properties about them:

* `part3_cryptarithmetic.py` — the cryptarithmetic validator and the
  backtracking solver (`validate_input`, `_word_to_number`,
  `_verify_mathematics`, `solve_puzzle`, `_backtrack_solve`, the solution
  cache of `CryptarithmeticSolver`);
* `part4_missionaries_cannibals.py` — the missionaries-and-cannibals state
  machine (`GameState`, `Character`, `add_to_boat`, `remove_from_boat`,
  `travel`, `_check_game_status`, `is_safe_state`, `initialize_game`);
* `cryptic_crossings.py` — the two-argument bank safety predicate `is_safe`;
* `part6_river_ui_controller.py` / `part1_game_data.py` /
  `part2_persistence.py` — the level-advance and progress-saving logic of
  `CrypticCrossingsGame._on_river_complete` and `__init__`.

Python `int` fields that the game mutates by `+= 1` / `-= 1` are modelled as
`Int`; quantities that are only ever compared or counted (list lengths,
capacities, level indices) are `Nat`.  Python lists become `List`, dicts
become association lists with first-match lookup (Python dicts never hold
duplicate keys, which theorems record as `Nodup` hypotheses where it
matters), and functions that raise or return error tuples return explicit
error values.
-/

namespace CrypticCrossings

/-! ## Part 4: the missionaries and cannibals engine (`part4_missionaries_cannibals.py`) -/

/-- `Side` enum: which side of the river (`Side.LEFT` / `Side.RIGHT`). -/
inductive Side where
  | left
  | right
deriving DecidableEq, Repr

/-- `CharacterType` enum: missionary (`"M"`) or cannibal (`"C"`). -/
inductive CharacterType where
  | missionary
  | cannibal
deriving DecidableEq, Repr

/-- `Character` dataclass: id, type and current location.  A character that
is aboard the boat keeps `location = boat_side` (see `add_to_boat`, which
sets `character.location = self.state.boat_side`); boat membership is
tracked by `boat_crew`. -/
structure Character where
  id : String
  type : CharacterType
  location : Side
deriving DecidableEq, Repr

/-- `GameState` dataclass of `part4_missionaries_cannibals.py`. -/
structure GameState where
  missionaries_left : Int
  cannibals_left : Int
  missionaries_right : Int
  cannibals_right : Int
  boat_side : Side
  boat_crew : List String
  boat_capacity : Nat
  total_missionaries : Nat
  total_cannibals : Nat
  move_count : Nat
  is_game_over : Bool
  is_won : Bool
deriving DecidableEq, Repr

/-- The dict built by `_get_state_snapshot`. -/
structure StateSnapshot where
  missionaries_left : Int
  cannibals_left : Int
  missionaries_right : Int
  cannibals_right : Int
  boat_side : Side
  boat_crew_count : Nat
  is_safe : Bool
deriving DecidableEq, Repr

/-- The move dict appended to `move_history` by `travel`. -/
structure MoveRecord where
  move_number : Nat
  from_side : Side
  passengers : List String
  state_before : StateSnapshot
  to_side : Side
  state_after : StateSnapshot
deriving DecidableEq, Repr

/-- The mutable fields of a `MissionariesCannibalsGame` instance. -/
structure Game where
  state : GameState
  characters : List Character
  move_history : List MoveRecord
deriving DecidableEq, Repr

/-- `is_safe_state(m_left, c_left, m_right, c_right)`: cannibals may not
outnumber missionaries on a side that has at least one missionary. -/
def is_safe_state (m_left c_left m_right c_right : Int) : Bool :=
  if m_left > 0 ∧ c_left > m_left then false
  else if m_right > 0 ∧ c_right > m_right then false
  else true

/-- `is_safe(m, c)` from `cryptic_crossings.py`: the single-bank safety
predicate (`C <= M or M = 0`). -/
def is_safe (m c : Int) : Bool :=
  if m = 0 then true
  else c ≤ m

/-- `is_current_state_safe`, reading the four counts out of the state. -/
def is_current_state_safe (s : GameState) : Bool :=
  is_safe_state s.missionaries_left s.cannibals_left
    s.missionaries_right s.cannibals_right

/-- `get_character`: linear scan returning the first character with the
given id. -/
def get_character (g : Game) (cid : String) : Option Character :=
  g.characters.find? (fun ch => ch.id == cid)

/-- Type of the first character with a given id (used to state the
conservation invariant). -/
def typeOf (chars : List Character) (cid : String) : Option CharacterType :=
  (chars.find? (fun ch => ch.id == cid)).map Character.type

/-- Number of crew ids whose character (first match by id) has type `t`. -/
def crewTypeCount (chars : List Character) (crew : List String)
    (t : CharacterType) : Nat :=
  (crew.filter (fun cid => typeOf chars cid == some t)).length

/-- Mutating `character.location` through the object returned by
`get_character` updates the first list entry with that id. -/
def setLocation (chars : List Character) (cid : String) (loc : Side) :
    List Character :=
  match chars with
  | [] => []
  | ch :: rest =>
      if ch.id == cid then { ch with location := loc } :: rest
      else ch :: setLocation rest cid loc

/-- `initialize_game(missionaries, cannibals, boat_capacity)`: everyone on
the left bank, boat on the left, ids `M1..Mm` then `C(m+1)..C(m+c)`. -/
def initialize_game (missionaries cannibals boat_capacity : Nat) : Game :=
  { state :=
      { missionaries_left := missionaries
        cannibals_left := cannibals
        missionaries_right := 0
        cannibals_right := 0
        boat_side := Side.left
        boat_crew := []
        boat_capacity := boat_capacity
        total_missionaries := missionaries
        total_cannibals := cannibals
        move_count := 0
        is_game_over := false
        is_won := false }
    characters :=
      (List.range missionaries).map
        (fun i => ⟨"M" ++ toString (i + 1), CharacterType.missionary, Side.left⟩)
      ++ (List.range cannibals).map
        (fun j => ⟨"C" ++ toString (missionaries + j + 1), CharacterType.cannibal, Side.left⟩)
    move_history := [] }

/-- The distinct failure branches of `can_add_to_boat` (the source returns
`(False, message)` tuples; each constructor is one message site). -/
inductive AddError where
  | gameOver
  | notFound
  | wrongSide
  | boatFull
  | alreadyAboard
deriving DecidableEq, Repr

/-- `can_add_to_boat`, with the source's check order: game over, character
lookup, side mismatch, capacity, already aboard. -/
def can_add_to_boat (g : Game) (cid : String) : Option AddError :=
  if g.state.is_game_over then some AddError.gameOver
  else
    match get_character g cid with
    | none => some AddError.notFound
    | some ch =>
        if ch.location ≠ g.state.boat_side then some AddError.wrongSide
        else if g.state.boat_crew.length ≥ g.state.boat_capacity then
          some AddError.boatFull
        else if cid ∈ g.state.boat_crew then some AddError.alreadyAboard
        else none

/-- Decrement the bank count of the given side and character type. -/
def decBank (s : GameState) (side : Side) (t : CharacterType) : GameState :=
  match side, t with
  | Side.left, CharacterType.missionary =>
      { s with missionaries_left := s.missionaries_left - 1 }
  | Side.left, CharacterType.cannibal =>
      { s with cannibals_left := s.cannibals_left - 1 }
  | Side.right, CharacterType.missionary =>
      { s with missionaries_right := s.missionaries_right - 1 }
  | Side.right, CharacterType.cannibal =>
      { s with cannibals_right := s.cannibals_right - 1 }

/-- Increment the bank count of the given side and character type. -/
def incBank (s : GameState) (side : Side) (t : CharacterType) : GameState :=
  match side, t with
  | Side.left, CharacterType.missionary =>
      { s with missionaries_left := s.missionaries_left + 1 }
  | Side.left, CharacterType.cannibal =>
      { s with cannibals_left := s.cannibals_left + 1 }
  | Side.right, CharacterType.missionary =>
      { s with missionaries_right := s.missionaries_right + 1 }
  | Side.right, CharacterType.cannibal =>
      { s with cannibals_right := s.cannibals_right + 1 }

/-- `add_to_boat`: guard with `can_add_to_boat`, then append the id to the
crew, refresh the character's location, and decrement the bank count of the
boat's side.  (The source looks the character up a second time after the
guard; the guard guarantees the lookup succeeds, so the `none` fallback
below is dead code.) -/
def add_to_boat (g : Game) (cid : String) : Game × Option AddError :=
  match can_add_to_boat g cid with
  | some e => (g, some e)
  | none =>
      match get_character g cid with
      | none => (g, some AddError.notFound)
      | some ch =>
          let s := { g.state with boat_crew := g.state.boat_crew ++ [cid] }
          let s := decBank s g.state.boat_side ch.type
          ({ g with
              state := s
              characters := setLocation g.characters cid g.state.boat_side },
            none)

/-- The failure branches of `can_remove_from_boat`. -/
inductive RemoveError where
  | gameOver
  | notAboard
deriving DecidableEq, Repr

/-- `can_remove_from_boat`: game must not be over, character must be aboard. -/
def can_remove_from_boat (g : Game) (cid : String) : Option RemoveError :=
  if g.state.is_game_over then some RemoveError.gameOver
  else if cid ∈ g.state.boat_crew then none
  else some RemoveError.notAboard

/-- `remove_from_boat`: guard, then drop the first occurrence of the id from
the crew (`list.remove`), refresh the character's location, and increment
back the bank count of the boat's side.  As in `add_to_boat`, the second
lookup cannot fail when the crew only holds real character ids. -/
def remove_from_boat (g : Game) (cid : String) : Game × Option RemoveError :=
  match can_remove_from_boat g cid with
  | some e => (g, some e)
  | none =>
      match get_character g cid with
      | none => (g, some RemoveError.notAboard)
      | some ch =>
          let s := { g.state with boat_crew := g.state.boat_crew.erase cid }
          let s := incBank s g.state.boat_side ch.type
          ({ g with
              state := s
              characters := setLocation g.characters cid g.state.boat_side },
            none)

/-- The failure branches of `can_travel`. -/
inductive TravelError where
  | gameOver
  | emptyBoat
  | overCapacity
deriving DecidableEq, Repr

/-- `can_travel`: game not over, at least one passenger, within capacity. -/
def can_travel (g : Game) : Option TravelError :=
  if g.state.is_game_over then some TravelError.gameOver
  else if g.state.boat_crew.length = 0 then some TravelError.emptyBoat
  else if g.state.boat_crew.length > g.state.boat_capacity then
    some TravelError.overCapacity
  else none

/-- `new_side = Side.RIGHT if boat_side == Side.LEFT else Side.LEFT`. -/
def flipSide : Side → Side
  | Side.left => Side.right
  | Side.right => Side.left

/-- `_get_state_snapshot`. -/
def get_state_snapshot (s : GameState) : StateSnapshot :=
  { missionaries_left := s.missionaries_left
    cannibals_left := s.cannibals_left
    missionaries_right := s.missionaries_right
    cannibals_right := s.cannibals_right
    boat_side := s.boat_side
    boat_crew_count := s.boat_crew.length
    is_safe := is_current_state_safe s }

/-- `_check_game_status`: loss (unsafe state) is checked before the win
condition (left bank empty and boat crew empty); otherwise the flags are
left alone. -/
def check_game_status (s : GameState) : GameState :=
  if is_current_state_safe s = false then
    { s with is_game_over := true, is_won := false }
  else if s.missionaries_left = 0 ∧ s.cannibals_left = 0 ∧
      s.boat_crew.length = 0 then
    { s with is_game_over := true, is_won := true }
  else s

/-- One iteration of the passenger loop in `travel`: look the id up in the
current character list, move the character to the new side, and increment
that side's count.  (On a missing id the source would raise; the fallback
keeps the pair unchanged and is dead for any state whose crew ids name real
characters.) -/
def movePassenger (new_side : Side) (p : List Character × GameState)
    (cid : String) : List Character × GameState :=
  match p.1.find? (fun ch => ch.id == cid) with
  | none => p
  | some ch => (setLocation p.1 cid new_side, incBank p.2 new_side ch.type)

/-- `travel`: guard, flip the boat side, move every crew member across,
clear the crew, count the move, append the move record, and finally run
`_check_game_status`. -/
def travel (g : Game) : Game × Option TravelError :=
  match can_travel g with
  | some e => (g, some e)
  | none =>
      let s0 := g.state
      let before := get_state_snapshot s0
      let new_side := flipSide s0.boat_side
      let s1 := { s0 with boat_side := new_side }
      let p := s0.boat_crew.foldl (movePassenger new_side) (g.characters, s1)
      let s2 := { p.2 with boat_crew := [], move_count := s0.move_count + 1 }
      let record : MoveRecord :=
        { move_number := s0.move_count + 1
          from_side := s0.boat_side
          passengers := s0.boat_crew
          state_before := before
          to_side := new_side
          state_after := get_state_snapshot s2 }
      ({ state := check_game_status s2
         characters := p.1
         move_history := g.move_history ++ [record] }, none)

/-- `restart_game`: reinitialize with the stored parameters. -/
def restart_game (g : Game) : Game :=
  initialize_game g.state.total_missionaries g.state.total_cannibals
    g.state.boat_capacity

/-- One externally triggered engine operation (the events the UI maps onto
the engine). -/
inductive Op where
  | add (cid : String)
  | remove (cid : String)
  | trav
deriving DecidableEq, Repr

/-- Apply one operation, keeping the resulting state (the status component
is reported to the UI and does not affect the engine state). -/
def applyOp (g : Game) : Op → Game
  | Op.add cid => (add_to_boat g cid).1
  | Op.remove cid => (remove_from_boat g cid).1
  | Op.trav => (travel g).1

/-- Apply a finite sequence of operations in order. -/
def applyOps (g : Game) (ops : List Op) : Game :=
  ops.foldl applyOp g

/-! ## Part 3: the cryptarithmetic validator and solver (`part3_cryptarithmetic.py`) -/

/-- A puzzle word: the ordered letters of one of the three words. -/
abbrev Word := List Char

/-- A letter-to-digit guess map.  Python uses a dict; the embedding uses an
association list with first-match lookup (a Python dict never holds a
duplicate key). -/
abbrev Assignment := List (Char × Nat)

/-- Dict lookup: value of the first entry with the given key. -/
def lookupDigit (g : Assignment) (l : Char) : Option Nat :=
  (g.find? (fun p => p.1 == l)).map Prod.snd

/-- The key list of a guess map (`guess_map.keys()`). -/
def keysOf (g : Assignment) : List Char :=
  g.map Prod.fst

/-- The ways `_word_to_number` can raise: `ValueError` on an empty word,
`KeyError` on a letter with no entry. -/
inductive WordError where
  | emptyWord
  | missingLetter (l : Char)
deriving DecidableEq, Repr

/-- `_word_to_number`: concatenate the digits of the word's letters and read
the result in base 10.  (The source builds the decimal string
`"".join(str(d))` and applies `int`; for digit values 0–9 — the `Digit`
domain of the puzzle — that equals this base-10 fold.) -/
def word_to_number_go (g : Assignment) : Word → Nat → Except WordError Nat
  | [], acc => Except.ok acc
  | ch :: rest, acc =>
      match lookupDigit g ch with
      | none => Except.error (WordError.missingLetter ch)
      | some d => word_to_number_go g rest (acc * 10 + d)

/-- `_word_to_number` entry point (raises on the empty word). -/
def word_to_number (word : Word) (g : Assignment) : Except WordError Nat :=
  if word = [] then Except.error WordError.emptyWord
  else word_to_number_go g word 0

/-- The failure results of `_verify_mathematics`. -/
inductive MathError where
  | wrongWordCount
  | wordErr (e : WordError)
  | mismatch (n1 n2 r : Nat)
deriving DecidableEq, Repr

/-- `_verify_mathematics`: exactly three words, all three convert, and
`num1 + num2 == result`; on success the verified sum is returned. -/
def verify_mathematics (words : List Word) (g : Assignment) :
    Except MathError Nat :=
  match words with
  | [w1, w2, w3] =>
      match word_to_number w1 g with
      | Except.error e => Except.error (MathError.wordErr e)
      | Except.ok n1 =>
          match word_to_number w2 g with
          | Except.error e => Except.error (MathError.wordErr e)
          | Except.ok n2 =>
              match word_to_number w3 g with
              | Except.error e => Except.error (MathError.wordErr e)
              | Except.ok r =>
                  if n1 + n2 = r then Except.ok r
                  else Except.error (MathError.mismatch n1 n2 r)
  | _ => Except.error MathError.wrongWordCount

/-- The boolean component of `_verify_mathematics`, which is all
`_backtrack_solve` inspects. -/
def mathOk (words : List Word) (g : Assignment) : Bool :=
  match verify_mathematics words g with
  | Except.ok _ => true
  | Except.error _ => false

/-- The failure messages of `validate_input`, one constructor per message
site. -/
inductive ValidationError where
  | missingAssignment (letters : List Char)
  | extraAssignment (letters : List Char)
  | duplicateDigit
  | leadingZero (letter : Char)
  | mathError (e : MathError)
deriving DecidableEq, Repr

/-- `set(letters) - set(guess_map.keys())`, the letters reported by the
missing-assignments message. -/
def missing_letters (letters : List Char) (g : Assignment) : List Char :=
  (letters.filter (fun l => !(keysOf g).contains l)).dedup

/-- `set(guess_map.keys()) - set(letters)`, the letters reported by the
extra-assignments message. -/
def extra_letters (letters : List Char) (g : Assignment) : List Char :=
  ((keysOf g).filter (fun l => !letters.contains l)).dedup

/-- The first word (in order) that is non-empty and whose leading letter is
mapped to 0 (`guess_map.get(word[0]) == 0`); rule 3 of `validate_input`. -/
def leadingZeroLetter (g : Assignment) : List Word → Option Char
  | [] => none
  | word :: rest =>
      match word with
      | [] => leadingZeroLetter g rest
      | l :: _ =>
          if lookupDigit g l == some 0 then some l
          else leadingZeroLetter g rest

/-- Rules 2–4 of `validate_input` (the continuation shared by both branches
of the rule-1 length test): duplicate digits, leading zeros, arithmetic. -/
def validate_rest (words : List Word) (g : Assignment) :
    Option ValidationError :=
  if (g.map Prod.snd).dedup.length ≠ (g.map Prod.snd).length then
    some ValidationError.duplicateDigit
  else
    match leadingZeroLetter g words with
    | some l => some (ValidationError.leadingZero l)
    | none =>
        match verify_mathematics words g with
        | Except.error e => some (ValidationError.mathError e)
        | Except.ok _ => none

/-- `validate_input`: rule 1 (completeness / extra keys) is only examined
when the guess map's size differs from the unique-letter list's size; then
rules 2–4 in order.  `none` is the success result. -/
def validate_input (words : List Word) (letters : List Char)
    (g : Assignment) : Option ValidationError :=
  if g.length ≠ letters.length then
    if missing_letters letters g ≠ [] then
      some (ValidationError.missingAssignment (missing_letters letters g))
    else if extra_letters letters g ≠ [] then
      some (ValidationError.extraAssignment (extra_letters letters g))
    else validate_rest words g
  else validate_rest words g

/-- The word-leading letters that may not be 0 (`leading_letters` set built
by `solve_puzzle`). -/
def leading_letters (words : List Word) : List Char :=
  words.filterMap List.head?

/-- `_backtrack_solve`.  `remaining` are the letters still to assign, `asg`
the assignment built so far (dict insertion order: new letters are
appended), `used` the digits taken so far.  For each letter the digits 0–9
are tried in ascending order, skipping used digits and the digit 0 for
word-leading letters (the two `continue`s); the first branch whose complete
assignment passes the arithmetic check is returned, a digit loop that runs
out backtracks by returning `none`. -/
def backtrack_solve : List Char → Assignment → List Nat → List Char →
    List Word → Option Assignment
  | [], asg, _, _, words => if mathOk words asg then some asg else none
  | letter :: rest, asg, used, leading, words =>
      (List.range 10).findSome? (fun d =>
        if d ∈ used ∨ (letter ∈ leading ∧ d = 0) then none
        else backtrack_solve rest (asg ++ [(letter, d)]) (used ++ [d])
          leading words)

/-- The search performed by one (cache-missing) `solve_puzzle` call:
backtracking from the empty assignment over the unique letters in order. -/
def solve_puzzle (words : List Word) (letters : List Char) :
    Option Assignment :=
  backtrack_solve letters [] [] (leading_letters words) words

/-- The cache key `tuple(words + unique_letters)`: the word list and the
letters (one-character strings) concatenated. -/
def puzzle_key (words : List Word) (letters : List Char) : List Word :=
  words ++ letters.map (fun l => [l])

/-- The mutable fields of a `CryptarithmeticSolver` instance. -/
structure CryptarithmeticSolver where
  current_puzzle : Option (List Word × List Char)
  solution_cache : List (List Word × Option Assignment)
deriving DecidableEq, Repr

/-- Dict lookup in the solution cache. -/
def cacheLookup (cache : List (List Word × Option Assignment))
    (k : List Word) : Option (Option Assignment) :=
  (cache.find? (fun p => p.1 == k)).map Prod.snd

/-- Dict store `cache[k] = v`: overwrite the existing entry or append. -/
def cacheInsert (cache : List (List Word × Option Assignment))
    (k : List Word) (v : Option Assignment) :
    List (List Word × Option Assignment) :=
  match cache with
  | [] => [(k, v)]
  | p :: rest =>
      if p.1 == k then (k, v) :: rest else p :: cacheInsert rest k v

/-- `set_puzzle`: installs the puzzle and resets `solution_cache` to `{}`. -/
def set_puzzle (s : CryptarithmeticSolver) (words : List Word)
    (letters : List Char) : CryptarithmeticSolver :=
  let _ := s
  { current_puzzle := some (words, letters), solution_cache := [] }

/-- `solve_puzzle` on a solver instance: consult the cache; on a miss, run
`set_puzzle` (which clears the cache), search, and store the result. -/
def solve_puzzle_cached (s : CryptarithmeticSolver) (words : List Word)
    (letters : List Char) : CryptarithmeticSolver × Option Assignment :=
  let k := puzzle_key words letters
  match cacheLookup s.solution_cache k with
  | some r => (s, r)
  | none =>
      let s1 := set_puzzle s words letters
      let sol := solve_puzzle words letters
      ({ s1 with solution_cache := cacheInsert s1.solution_cache k sol }, sol)

/-- Has this puzzle a cache entry in the current solver state? -/
def cache_has (s : CryptarithmeticSolver) (words : List Word)
    (letters : List Char) : Bool :=
  (cacheLookup s.solution_cache (puzzle_key words letters)).isSome

/-! ## Parts 1/2/6: levels, persistence and the session controller -/

/-- One level definition from `part1_game_data.py` (the fields the core
logic reads). -/
structure LevelData where
  words : List Word
  unique_letters : List Char
  final_m : Nat
  final_c : Nat
  final_k : Nat
deriving DecidableEq, Repr

/-- The three supplied levels of `LEVELS`. -/
def LEVELS : List LevelData :=
  [ { words := [['S','E','N','D'], ['M','O','R','E'], ['M','O','N','E','Y']]
      unique_letters := ['S','E','N','D','M','O','R','Y']
      final_m := 3, final_c := 3, final_k := 2 }
  , { words := [['T','W','O'], ['T','W','O'], ['F','O','U','R']]
      unique_letters := ['T','W','O','F','U','R']
      final_m := 4, final_c := 4, final_k := 3 }
  , { words := [['T','H','I','S'], ['I','S'], ['G','O','O','D']]
      unique_letters := ['T','H','I','S','G','O','D']
      final_m := 5, final_c := 5, final_k := 3 } ]

/-- `get_level_count()`. -/
def get_level_count : Nat := LEVELS.length

/-- The level-progress fields of the `CrypticCrossingsGame` controller. -/
structure ControllerState where
  current_level : Nat
  highest_level_completed : Nat
deriving DecidableEq, Repr

/-- `_load_level(index)`: sets the current level when the index is within
range, otherwise does nothing. -/
def load_level (s : ControllerState) (i : Nat) : ControllerState :=
  if i < get_level_count then { s with current_level := i } else s

/-- Controller construction (`__init__`): `load_progress()` is consulted
once; its value becomes the recorded highest level and
`min(highest, level_count - 1)` the starting level. -/
def init_controller (loaded : Nat) : ControllerState :=
  load_level { current_level := 0, highest_level_completed := loaded }
    (min loaded (get_level_count - 1))

/-- `_on_river_complete`: update the recorded highest level (saving progress
exactly when the finished level reaches it), then advance to the next level,
wrapping to level 0 after the last.  The second component lists the
`save_progress` calls made, in order. -/
def on_river_complete (s : ControllerState) : ControllerState × List Nat :=
  let hsave :=
    if s.current_level ≥ s.highest_level_completed then
      (s.current_level + 1, [s.current_level + 1])
    else (s.highest_level_completed, ([] : List Nat))
  let s1 := { s with highest_level_completed := hsave.1 }
  let s2 :=
    if s.current_level < get_level_count - 1 then
      load_level s1 (s.current_level + 1)
    else load_level s1 0
  (s2, hsave.2)

/-! ## Concrete instances and derived predicates used by the theorems -/

/-- The inductive invariant behind the conservation claim: every crew id
names a character, and the bank counts plus the crew census of each type
add up to the initial totals. -/
def ConservedInv (g : Game) (m c : Nat) : Prop :=
  (∀ cid ∈ g.state.boat_crew, (typeOf g.characters cid).isSome) ∧
  g.state.missionaries_left + g.state.missionaries_right +
    (crewTypeCount g.characters g.state.boat_crew
      CharacterType.missionary : Int) = (m : Int) ∧
  g.state.cannibals_left + g.state.cannibals_right +
    (crewTypeCount g.characters g.state.boat_crew
      CharacterType.cannibal : Int) = (c : Int)

/-- A 3M/3C capacity-2 game with two characters already boarded. -/
def g332_full : Game :=
  (add_to_boat (add_to_boat (initialize_game 3 3 2) "M1").1 "M2").1

/-- 2M/3C capacity-2 game with one missionary boarded: the next crossing
leaves the left bank unsafe. -/
def gLost : Game := (add_to_boat (initialize_game 2 3 2) "M1").1

/-- 1M/0C capacity-1 game with the missionary boarded: the next crossing
wins. -/
def gWin : Game := (add_to_boat (initialize_game 1 0 1) "M1").1

/-- 2M/2C capacity-2 game with one cannibal boarded: the next crossing is
safe but not winning. -/
def gAct : Game := (add_to_boat (initialize_game 2 2 2) "C3").1

/-- Does a validation result carry the leading-zero failure? -/
def isLeadingZero : Option ValidationError → Bool
  | some (ValidationError.leadingZero _) => true
  | _ => false


/-! ## Helper lemmas about the river engine -/

lemma typeOf_setLocation (chars : List Character) (cid : String) (loc : Side)
    (x : String) : typeOf (setLocation chars cid loc) x = typeOf chars x := by
  induction chars with
  | nil => rfl
  | cons ch rest ih =>
      unfold setLocation typeOf
      by_cases h : ch.id = cid
      · subst h
        simp only [beq_self_eq_true, if_true]
        by_cases hx : ch.id = x
        · rw [List.find?_cons_of_pos _ (by simpa using hx),
            List.find?_cons_of_pos _ (by simpa using hx)]
          rfl
        · rw [List.find?_cons_of_neg _ (by simpa using hx),
            List.find?_cons_of_neg _ (by simpa using hx)]
      · rw [if_neg (by simpa using h)]
        by_cases hx : ch.id = x
        · rw [List.find?_cons_of_pos _ (by simpa using hx),
            List.find?_cons_of_pos _ (by simpa using hx)]
        · rw [List.find?_cons_of_neg _ (by simpa using hx),
            List.find?_cons_of_neg _ (by simpa using hx)]
          exact ih

lemma find?_setLocation_self (chars : List Character) (cid : String)
    (loc : Side) (ch : Character)
    (h : chars.find? (fun c => c.id == cid) = some ch) :
    (setLocation chars cid loc).find? (fun c => c.id == cid) =
      some { ch with location := loc } := by
  induction chars with
  | nil => simp at h
  | cons hd rest ih =>
      unfold setLocation
      by_cases hh : hd.id = cid
      · rw [List.find?_cons_of_pos _ (by simp [hh])] at h
        cases h
        simp [hh, List.find?_cons_of_pos]
      · rw [List.find?_cons_of_neg _ (by simp [hh])] at h
        simp only [beq_iff_eq, hh, if_false]
        rw [List.find?_cons_of_neg _ (by simp [hh])]
        exact ih h

lemma setLocation_of_location_eq (chars : List Character) (cid : String)
    (loc : Side) (ch : Character)
    (h : chars.find? (fun c => c.id == cid) = some ch)
    (hloc : ch.location = loc) : setLocation chars cid loc = chars := by
  induction chars with
  | nil => rfl
  | cons hd rest ih =>
      unfold setLocation
      by_cases hh : hd.id = cid
      · subst hh
        rw [List.find?_cons_of_pos _ (by simp)] at h
        cases h
        rw [if_pos (by simp), ← hloc]
      · rw [List.find?_cons_of_neg _ (by simp [hh])] at h
        simp [hh, ih h]

lemma setLocation_setLocation (chars : List Character) (cid : String)
    (loc loc' : Side) :
    setLocation (setLocation chars cid loc) cid loc' =
      setLocation chars cid loc' := by
  induction chars with
  | nil => rfl
  | cons hd rest ih =>
      unfold setLocation
      by_cases hh : hd.id = cid <;> simp [setLocation, hh, ih]

lemma decBank_fields (s : GameState) (side : Side) (t : CharacterType) :
    (decBank s side t).boat_side = s.boat_side ∧
    (decBank s side t).boat_crew = s.boat_crew ∧
    (decBank s side t).boat_capacity = s.boat_capacity ∧
    (decBank s side t).move_count = s.move_count ∧
    (decBank s side t).is_game_over = s.is_game_over ∧
    (decBank s side t).is_won = s.is_won ∧
    (decBank s side t).total_missionaries = s.total_missionaries ∧
    (decBank s side t).total_cannibals = s.total_cannibals := by
  cases side <;> cases t <;> simp [decBank]

lemma incBank_fields (s : GameState) (side : Side) (t : CharacterType) :
    (incBank s side t).boat_side = s.boat_side ∧
    (incBank s side t).boat_crew = s.boat_crew ∧
    (incBank s side t).boat_capacity = s.boat_capacity ∧
    (incBank s side t).move_count = s.move_count ∧
    (incBank s side t).is_game_over = s.is_game_over ∧
    (incBank s side t).is_won = s.is_won ∧
    (incBank s side t).total_missionaries = s.total_missionaries ∧
    (incBank s side t).total_cannibals = s.total_cannibals := by
  cases side <;> cases t <;> simp [incBank]

lemma can_add_none_iff (g : Game) (cid : String) :
    can_add_to_boat g cid = none ↔
      (g.state.is_game_over = false ∧
        ∃ ch, get_character g cid = some ch ∧
          ch.location = g.state.boat_side ∧
          g.state.boat_crew.length < g.state.boat_capacity ∧
          cid ∉ g.state.boat_crew) := by
  unfold can_add_to_boat
  cases hgo : g.state.is_game_over
  · cases hch : get_character g cid with
    | none => simp
    | some ch =>
        simp only [if_false, Bool.false_eq_true, Option.some.injEq]
        split_ifs with h1 h2 h3 <;> simp_all
  · simp

lemma add_to_boat_success_eq (g : Game) (cid : String) (ch : Character)
    (h : can_add_to_boat g cid = none)
    (hch : get_character g cid = some ch) :
    add_to_boat g cid =
      ({ g with
          state := decBank { g.state with
              boat_crew := g.state.boat_crew ++ [cid] }
            g.state.boat_side ch.type
          characters := setLocation g.characters cid g.state.boat_side },
        none) := by
  unfold add_to_boat
  rw [h, hch]

lemma add_to_boat_snd_eq_none_iff (g : Game) (cid : String) :
    (add_to_boat g cid).2 = none ↔ can_add_to_boat g cid = none := by
  constructor
  · intro h
    cases hc : can_add_to_boat g cid with
    | none => rfl
    | some e => unfold add_to_boat at h; rw [hc] at h; simp at h
  · intro h
    obtain ⟨-, ch, hch, -⟩ := (can_add_none_iff g cid).mp h
    rw [add_to_boat_success_eq g cid ch h hch]

lemma can_remove_none_iff (g : Game) (cid : String) :
    can_remove_from_boat g cid = none ↔
      g.state.is_game_over = false ∧ cid ∈ g.state.boat_crew := by
  unfold can_remove_from_boat
  split_ifs <;> simp_all

lemma remove_from_boat_success_eq (g : Game) (cid : String) (ch : Character)
    (h : can_remove_from_boat g cid = none)
    (hch : get_character g cid = some ch) :
    remove_from_boat g cid =
      ({ g with
          state := incBank { g.state with
              boat_crew := g.state.boat_crew.erase cid }
            g.state.boat_side ch.type
          characters := setLocation g.characters cid g.state.boat_side },
        none) := by
  unfold remove_from_boat
  rw [h, hch]

/-! ## Claim C3: the bank safety predicate -/

/-- C3: for non-negative `m` and `c` the bank predicate `is_safe(m, c)` is
false iff `m > 0` and `c > m` — true whenever `m = 0`, true whenever
`m > 0 ∧ c ≤ m`, false whenever `m > 0 ∧ c > m` — and a full river state is
safe (`is_safe_state`) iff both banks satisfy `is_safe`. -/
theorem is_safe_characterization :
    ∀ m c : Int, 0 ≤ m → 0 ≤ c →
      ((is_safe m c = false ↔ 0 < m ∧ m < c) ∧
        (m = 0 → is_safe m c = true) ∧
        (0 < m → c ≤ m → is_safe m c = true) ∧
        (0 < m → m < c → is_safe m c = false)) ∧
      (∀ ml cl mr cr : Int, 0 ≤ ml → 0 ≤ cl → 0 ≤ mr → 0 ≤ cr →
        is_safe_state ml cl mr cr = (is_safe ml cl && is_safe mr cr)) := by
  intro m c hm hc
  refine ⟨?_, ?_⟩
  · unfold is_safe
    split_ifs with h <;> simp_all
    all_goals try omega
  · intro ml cl mr cr h1 h2 h3 h4
    unfold is_safe_state is_safe
    split_ifs <;> simp_all <;> omega

/-- Witness for C3 at concrete inputs. -/
theorem is_safe_characterization_witness :
    is_safe 1 2 = false ∧ is_safe 0 7 = true ∧
      is_safe_state 0 5 2 2 = (is_safe 0 5 && is_safe 2 2) := by
  refine ⟨?_, ?_, ?_⟩
  · exact (is_safe_characterization 1 2 (by decide) (by decide)).1.2.2.2
      (by decide) (by decide)
  · exact (is_safe_characterization 0 7 (by decide) (by decide)).1.2.1 rfl
  · exact (is_safe_characterization 1 1 (by decide) (by decide)).2 0 5 2 2
      (by decide) (by decide) (by decide) (by decide)

/-! ## Claim C5: when `add_to_boat` fails -/

/-- C5: `add_to_boat(id)` fails exactly when the engine is terminal, no
character has the id, the character is not on the boat's side, the crew is
at capacity, or the character is already aboard — bank safety never blocks
a boarding — and every failure leaves the whole game value unchanged. -/
theorem add_to_boat_failure_characterization :
    ∀ (g : Game) (cid : String),
      ((add_to_boat g cid).2 ≠ none ↔
        (g.state.is_game_over = true ∨ get_character g cid = none ∨
          (∃ ch, get_character g cid = some ch ∧
            ch.location ≠ g.state.boat_side) ∨
          g.state.boat_crew.length ≥ g.state.boat_capacity ∨
          cid ∈ g.state.boat_crew)) ∧
      ((add_to_boat g cid).2 ≠ none → (add_to_boat g cid).1 = g) := by
  intro g cid
  constructor
  · rw [Ne, add_to_boat_snd_eq_none_iff, can_add_none_iff]
    cases hch : get_character g cid with
    | none => simp [hch]
    | some ch =>
        cases hgo : g.state.is_game_over <;> simp [hch, hgo]
        rcases Nat.lt_or_ge g.state.boat_crew.length g.state.boat_capacity
          with hlen | hlen
        · simp [hlen, Nat.not_le_of_lt hlen]
          tauto
        · simp [hlen, Nat.not_lt_of_le hlen]
  · intro h
    cases hc : can_add_to_boat g cid with
    | some e => unfold add_to_boat; rw [hc]
    | none =>
        exact absurd ((add_to_boat_snd_eq_none_iff g cid).mpr hc) h

/-- Witness for C5: with capacity 2 and two characters boarded, a third
`add_to_boat` fails with the capacity error and changes nothing; and a
boarding that leaves a bank unsafe (2M/3C, boarding one missionary) is not
rejected. -/
theorem add_to_boat_failure_characterization_witness :
    (add_to_boat g332_full "M3").2 = some AddError.boatFull ∧
      (add_to_boat g332_full "M3").1 = g332_full ∧
      g332_full.state.boat_crew.length = 2 ∧
      (add_to_boat (initialize_game 2 3 2) "M1").2 = none ∧
      is_safe_state 1 3 0 0 = false := by
  refine ⟨by decide, ?_, by decide, by decide, by decide⟩
  exact (add_to_boat_failure_characterization g332_full "M3").2 (by decide)

/-! ## Claim C1: the conservation invariant -/

lemma check_game_status_fields (s : GameState) :
    (check_game_status s).missionaries_left = s.missionaries_left ∧
    (check_game_status s).cannibals_left = s.cannibals_left ∧
    (check_game_status s).missionaries_right = s.missionaries_right ∧
    (check_game_status s).cannibals_right = s.cannibals_right ∧
    (check_game_status s).boat_side = s.boat_side ∧
    (check_game_status s).boat_crew = s.boat_crew ∧
    (check_game_status s).move_count = s.move_count := by
  unfold check_game_status
  split_ifs <;> simp

lemma is_current_state_safe_check (s : GameState) :
    is_current_state_safe (check_game_status s) = is_current_state_safe s := by
  obtain ⟨h1, h2, h3, h4, -⟩ := check_game_status_fields s
  unfold is_current_state_safe
  rw [h1, h2, h3, h4]

lemma check_game_status_flags (s : GameState) :
    (is_current_state_safe s = false →
      (check_game_status s).is_game_over = true ∧
        (check_game_status s).is_won = false) ∧
    (is_current_state_safe s = true → s.missionaries_left = 0 →
      s.cannibals_left = 0 → s.boat_crew.length = 0 →
      (check_game_status s).is_game_over = true ∧
        (check_game_status s).is_won = true) ∧
    (is_current_state_safe s = true →
      ¬(s.missionaries_left = 0 ∧ s.cannibals_left = 0 ∧
          s.boat_crew.length = 0) →
      (check_game_status s).is_game_over = s.is_game_over ∧
        (check_game_status s).is_won = s.is_won) := by
  unfold check_game_status
  split_ifs with h1 h2 <;> simp_all

lemma foldl_movePassenger_fields (crew : List String) (ns : Side) :
    ∀ (chars : List Character) (s : GameState),
      (crew.foldl (movePassenger ns) (chars, s)).2.boat_side = s.boat_side ∧
      (crew.foldl (movePassenger ns) (chars, s)).2.boat_crew = s.boat_crew ∧
      (crew.foldl (movePassenger ns) (chars, s)).2.boat_capacity
        = s.boat_capacity ∧
      (crew.foldl (movePassenger ns) (chars, s)).2.move_count = s.move_count ∧
      (crew.foldl (movePassenger ns) (chars, s)).2.is_game_over
        = s.is_game_over ∧
      (crew.foldl (movePassenger ns) (chars, s)).2.is_won = s.is_won ∧
      (crew.foldl (movePassenger ns) (chars, s)).2.total_missionaries
        = s.total_missionaries ∧
      (crew.foldl (movePassenger ns) (chars, s)).2.total_cannibals
        = s.total_cannibals := by
  induction crew with
  | nil => intro chars s; exact ⟨rfl, rfl, rfl, rfl, rfl, rfl, rfl, rfl⟩
  | cons cid rest ih =>
      intro chars s
      simp only [List.foldl_cons]
      unfold movePassenger
      cases h : chars.find? (fun c => c.id == cid) with
      | none => exact ih chars s
      | some ch =>
          obtain ⟨a1, a2, a3, a4, a5, a6, a7, a8⟩ :=
            ih (setLocation chars cid ns) (incBank s ns ch.type)
          obtain ⟨b1, b2, b3, b4, b5, b6, b7, b8⟩ := incBank_fields s ns ch.type
          exact ⟨a1.trans b1, a2.trans b2, a3.trans b3, a4.trans b4,
            a5.trans b5, a6.trans b6, a7.trans b7, a8.trans b8⟩

lemma can_travel_none_iff (g : Game) :
    can_travel g = none ↔
      g.state.is_game_over = false ∧ g.state.boat_crew.length ≠ 0 ∧
        g.state.boat_crew.length ≤ g.state.boat_capacity := by
  unfold can_travel
  split_ifs <;> simp_all

lemma travel_snd_eq_none_iff (g : Game) :
    (travel g).2 = none ↔ can_travel g = none := by
  unfold travel
  cases h : can_travel g <;> simp

lemma travel_failure_eq (g : Game) (e : TravelError)
    (h : can_travel g = some e) : travel g = (g, some e) := by
  unfold travel
  rw [h]

lemma travel_success_state (g : Game) (h : can_travel g = none) :
    (travel g).1.state =
      check_game_status
        { (g.state.boat_crew.foldl (movePassenger (flipSide g.state.boat_side))
            (g.characters,
              { g.state with boat_side := flipSide g.state.boat_side })).2 with
          boat_crew := []
          move_count := g.state.move_count + 1 } := by
  unfold travel
  rw [h]


lemma crewTypeCount_setLocation (chars : List Character) (cid : String)
    (loc : Side) (crew : List String) (t : CharacterType) :
    crewTypeCount (setLocation chars cid loc) crew t =
      crewTypeCount chars crew t := by
  unfold crewTypeCount
  congr 1
  apply List.filter_congr
  intro x _
  rw [typeOf_setLocation]

lemma crewTypeCount_cons (chars : List Character) (cid : String)
    (rest : List String) (t : CharacterType) :
    crewTypeCount chars (cid :: rest) t =
      (if typeOf chars cid = some t then 1 else 0) +
        crewTypeCount chars rest t := by
  unfold crewTypeCount
  by_cases h : typeOf chars cid = some t <;>
    simp [List.filter_cons, h, Nat.add_comm]

lemma crewTypeCount_append_single (chars : List Character)
    (crew : List String) (cid : String) (t : CharacterType) :
    crewTypeCount chars (crew ++ [cid]) t =
      crewTypeCount chars crew t +
        (if typeOf chars cid = some t then 1 else 0) := by
  unfold crewTypeCount
  rw [List.filter_append, List.length_append]
  congr 1
  by_cases h : typeOf chars cid = some t <;> simp [List.filter_cons, h]

lemma length_filter_erase (l : List String) (a : String) (p : String → Bool)
    (h : a ∈ l) :
    (l.filter p).length =
      ((l.erase a).filter p).length + (if p a then 1 else 0) := by
  induction l with
  | nil => simp at h
  | cons b t ih =>
      by_cases hb : b = a
      · subst hb
        rw [List.erase_cons_head]
        by_cases hp : p b <;> simp [List.filter_cons, hp]
      · rw [List.erase_cons_tail (by simpa using hb)]
        have ht : a ∈ t := by
          rcases List.mem_cons.mp h with h1 | h1
          · exact absurd h1.symm hb
          · exact h1
        by_cases hp : p b <;> simp [List.filter_cons, hp, ih ht]
        all_goals try omega

lemma crewTypeCount_erase (chars : List Character) (crew : List String)
    (cid : String) (t : CharacterType) (h : cid ∈ crew) :
    crewTypeCount chars crew t =
      crewTypeCount chars (crew.erase cid) t +
        (if typeOf chars cid = some t then 1 else 0) := by
  unfold crewTypeCount
  rw [length_filter_erase crew cid _ h]
  congr 1
  by_cases hh : typeOf chars cid = some t <;> simp [hh]

lemma incBank_sums (s : GameState) (ns : Side) (t : CharacterType) :
    ((incBank s ns t).missionaries_left + (incBank s ns t).missionaries_right
        = s.missionaries_left + s.missionaries_right +
          (if t = CharacterType.missionary then 1 else 0)) ∧
    ((incBank s ns t).cannibals_left + (incBank s ns t).cannibals_right
        = s.cannibals_left + s.cannibals_right +
          (if t = CharacterType.cannibal then 1 else 0)) := by
  cases ns <;> cases t <;> simp [incBank] <;> ring

lemma decBank_sums (s : GameState) (ns : Side) (t : CharacterType) :
    ((decBank s ns t).missionaries_left + (decBank s ns t).missionaries_right
        = s.missionaries_left + s.missionaries_right -
          (if t = CharacterType.missionary then 1 else 0)) ∧
    ((decBank s ns t).cannibals_left + (decBank s ns t).cannibals_right
        = s.cannibals_left + s.cannibals_right -
          (if t = CharacterType.cannibal then 1 else 0)) := by
  cases ns <;> cases t <;> simp [decBank] <;> ring

lemma inv_add (m c : Nat) (g : Game) (cid : String)
    (h : ConservedInv g m c) : ConservedInv (add_to_boat g cid).1 m c := by
  cases hc : can_add_to_boat g cid with
  | some e => unfold add_to_boat; rw [hc]; exact h
  | none =>
      obtain ⟨-, ch, hch, hloc, hlen, hmem⟩ := (can_add_none_iff g cid).mp hc
      rw [add_to_boat_success_eq g cid ch hc hch]
      obtain ⟨hwf, hm, hcc⟩ := h
      have hfind : g.characters.find? (fun c => c.id == cid) = some ch := hch
      have htype : typeOf g.characters cid = some ch.type := by
        unfold typeOf
        rw [hfind]
        rfl
      obtain ⟨⟨ml, cl, mr, cr, bs, crew, cap, tm, tc, mc, go, won⟩, chars, hist⟩ := g
      simp only at hwf hm hcc htype hfind
      refine ⟨?_, ?_, ?_⟩
      · intro x hx
        have hx2 : x ∈ crew ++ [cid] := by
          have := (decBank_fields
            { missionaries_left := ml, cannibals_left := cl,
              missionaries_right := mr, cannibals_right := cr,
              boat_side := bs, boat_crew := crew ++ [cid],
              boat_capacity := cap, total_missionaries := tm,
              total_cannibals := tc, move_count := mc,
              is_game_over := go, is_won := won } bs ch.type).2.1
          simpa [this] using hx
        rw [typeOf_setLocation]
        rcases List.mem_append.mp hx2 with hx3 | hx3
        · exact hwf x hx3
        · rw [List.mem_singleton] at hx3
          subst hx3
          rw [htype]
          rfl
      · cases bs <;> cases hty : ch.type <;>
          · rw [hty] at htype
            simp [decBank, crewTypeCount_setLocation,
              crewTypeCount_append_single, typeOf_setLocation, htype]
            try omega
      · cases bs <;> cases hty : ch.type <;>
          · rw [hty] at htype
            simp [decBank, crewTypeCount_setLocation,
              crewTypeCount_append_single, typeOf_setLocation, htype]
            try omega

lemma inv_remove (m c : Nat) (g : Game) (cid : String)
    (h : ConservedInv g m c) : ConservedInv (remove_from_boat g cid).1 m c := by
  cases hc : can_remove_from_boat g cid with
  | some e => unfold remove_from_boat; rw [hc]; exact h
  | none =>
      obtain ⟨-, hmem⟩ := (can_remove_none_iff g cid).mp hc
      obtain ⟨hwf, hm, hcc⟩ := h
      cases hch : get_character g cid with
      | none =>
          exfalso
          have := hwf cid hmem
          unfold typeOf at this
          unfold get_character at hch
          rw [hch] at this
          simp at this
      | some ch =>
          rw [remove_from_boat_success_eq g cid ch hc hch]
          have hfind : g.characters.find? (fun c => c.id == cid) = some ch := hch
          have htype : typeOf g.characters cid = some ch.type := by
            unfold typeOf
            rw [hfind]
            rfl
          obtain ⟨⟨ml, cl, mr, cr, bs, crew, cap, tm, tc, mc, go, won⟩, chars, hist⟩ := g
          simp only at hwf hm hcc htype hfind hmem
          have hcount := crewTypeCount_erase chars crew cid
          refine ⟨?_, ?_, ?_⟩
          · intro x hx
            have hx2 : x ∈ crew.erase cid := by
              have := (incBank_fields
                { missionaries_left := ml, cannibals_left := cl,
                  missionaries_right := mr, cannibals_right := cr,
                  boat_side := bs, boat_crew := crew.erase cid,
                  boat_capacity := cap, total_missionaries := tm,
                  total_cannibals := tc, move_count := mc,
                  is_game_over := go, is_won := won } bs ch.type).2.1
              simpa [this] using hx
            rw [typeOf_setLocation]
            exact hwf x (List.mem_of_mem_erase hx2)
          · cases bs <;> cases hty : ch.type <;>
              · rw [hty] at htype
                rw [hcount CharacterType.missionary hmem] at hm
                simp [incBank, crewTypeCount_setLocation,
                  typeOf_setLocation, htype] at hm ⊢
                try omega
          · cases bs <;> cases hty : ch.type <;>
              · rw [hty] at htype
                rw [hcount CharacterType.cannibal hmem] at hcc
                simp [incBank, crewTypeCount_setLocation,
                  typeOf_setLocation, htype] at hcc ⊢
                try omega

lemma foldl_movePassenger_counts (ns : Side) :
    ∀ (crew : List String) (chars : List Character) (s : GameState),
      (∀ cid ∈ crew, (typeOf chars cid).isSome) →
      (∀ x, typeOf (crew.foldl (movePassenger ns) (chars, s)).1 x
          = typeOf chars x) ∧
      ((crew.foldl (movePassenger ns) (chars, s)).2.missionaries_left +
          (crew.foldl (movePassenger ns) (chars, s)).2.missionaries_right
        = s.missionaries_left + s.missionaries_right +
          (crewTypeCount chars crew CharacterType.missionary : Int)) ∧
      ((crew.foldl (movePassenger ns) (chars, s)).2.cannibals_left +
          (crew.foldl (movePassenger ns) (chars, s)).2.cannibals_right
        = s.cannibals_left + s.cannibals_right +
          (crewTypeCount chars crew CharacterType.cannibal : Int)) := by
  intro crew
  induction crew with
  | nil =>
      intro chars s h
      refine ⟨fun x => rfl, ?_, ?_⟩ <;> simp [crewTypeCount]
  | cons cid rest ih =>
      intro chars s hwf
      simp only [List.foldl_cons]
      have hcid : (typeOf chars cid).isSome := hwf cid (List.mem_cons_self _ _)
      cases hch : chars.find? (fun c => c.id == cid) with
      | none =>
          exfalso
          unfold typeOf at hcid
          rw [hch] at hcid
          simp at hcid
      | some ch =>
          have hmp : movePassenger ns (chars, s) cid =
              (setLocation chars cid ns, incBank s ns ch.type) := by
            unfold movePassenger
            rw [hch]
          rw [hmp]
          have htype : typeOf chars cid = some ch.type := by
            unfold typeOf
            rw [hch]
            rfl
          have hwf2 : ∀ x ∈ rest, (typeOf (setLocation chars cid ns) x).isSome := by
            intro x hx
            rw [typeOf_setLocation]
            exact hwf x (List.mem_cons_of_mem _ hx)
          obtain ⟨ih1, ih2, ih3⟩ := ih (setLocation chars cid ns)
            (incBank s ns ch.type) hwf2
          refine ⟨?_, ?_, ?_⟩
          · intro x
            rw [ih1 x, typeOf_setLocation]
          · rw [ih2, crewTypeCount_setLocation,
              crewTypeCount_cons chars cid rest, htype,
              (incBank_sums s ns ch.type).1]
            cases ch.type <;> simp
            all_goals ring
          · rw [ih3, crewTypeCount_setLocation,
              crewTypeCount_cons chars cid rest, htype,
              (incBank_sums s ns ch.type).2]
            cases ch.type <;> simp
            all_goals ring

lemma inv_travel (m c : Nat) (g : Game) (h : ConservedInv g m c) :
    ConservedInv (travel g).1 m c := by
  cases hc : can_travel g with
  | some e => rw [travel_failure_eq g e hc]; exact h
  | none =>
      obtain ⟨hwf, hm, hcc⟩ := h
      have hstate := travel_success_state g hc
      have hcounts := foldl_movePassenger_counts (flipSide g.state.boat_side)
        g.state.boat_crew g.characters
        { g.state with boat_side := flipSide g.state.boat_side } hwf
      obtain ⟨f1, f2, f3, f4, f5, f6, f7⟩ := check_game_status_fields
        { (g.state.boat_crew.foldl
            (movePassenger (flipSide g.state.boat_side))
            (g.characters,
              { g.state with boat_side := flipSide g.state.boat_side })).2 with
          boat_crew := []
          move_count := g.state.move_count + 1 }
      refine ⟨?_, ?_, ?_⟩
      · intro x hx
        rw [hstate, f6] at hx
        simp at hx
      · rw [hstate, f1, f3, f6]
        simp only [crewTypeCount, List.filter_nil, List.length_nil,
          Nat.cast_zero, add_zero]
        have h2 := hcounts.2.1
        simp only at h2 ⊢
        omega
      · rw [hstate, f2, f4, f6]
        simp only [crewTypeCount, List.filter_nil, List.length_nil,
          Nat.cast_zero, add_zero]
        have h3 := hcounts.2.2
        simp only at h3 ⊢
        omega

lemma inv_init (m c k : Nat) : ConservedInv (initialize_game m c k) m c := by
  refine ⟨?_, ?_, ?_⟩
  · intro x hx
    simp [initialize_game] at hx
  · simp [initialize_game, crewTypeCount]
  · simp [initialize_game, crewTypeCount]

lemma inv_applyOps (m c : Nat) (ops : List Op) :
    ∀ (g : Game), ConservedInv g m c → ConservedInv (applyOps g ops) m c := by
  induction ops with
  | nil => intro g h; exact h
  | cons op rest ih =>
      intro g h
      unfold applyOps
      rw [List.foldl_cons]
      refine ih _ ?_
      cases op with
      | add cid => exact inv_add m c g cid h
      | remove cid => exact inv_remove m c g cid h
      | trav => exact inv_travel m c g h

/-- C1: for every game initialized by `initialize_game(m, c, k)` and every
finite sequence of `add_to_boat` / `remove_from_boat` / `travel` calls, the
left-bank count plus the right-bank count plus the number of crew ids of
each character type always equals the initial total — missionaries sum to
`m` and cannibals to `c`, in terminal (game-over) states included. -/
theorem conservation_invariant :
    ∀ (m c k : Nat) (ops : List Op),
      (applyOps (initialize_game m c k) ops).state.missionaries_left +
        (applyOps (initialize_game m c k) ops).state.missionaries_right +
        (crewTypeCount (applyOps (initialize_game m c k) ops).characters
          (applyOps (initialize_game m c k) ops).state.boat_crew
          CharacterType.missionary : Int) = (m : Int) ∧
      (applyOps (initialize_game m c k) ops).state.cannibals_left +
        (applyOps (initialize_game m c k) ops).state.cannibals_right +
        (crewTypeCount (applyOps (initialize_game m c k) ops).characters
          (applyOps (initialize_game m c k) ops).state.boat_crew
          CharacterType.cannibal : Int) = (c : Int) := by
  intro m c k ops
  obtain ⟨-, h1, h2⟩ := inv_applyOps m c ops (initialize_game m c k)
    (inv_init m c k)
  exact ⟨h1, h2⟩

/-! ## Claim C2: terminal evaluation -/

/-- C2: terminal evaluation runs exactly at the end of a successful
`travel()`: if the resulting state is unsafe on either bank the state
becomes Lost; else if both left-bank counts are zero and the crew is empty
it becomes Won; otherwise `is_game_over` stays false.  Loss takes
precedence (the loss test is decided first, for every state), and neither
`add_to_boat`, `remove_from_boat` nor a failing `travel` touches the
terminal flags. -/
theorem terminal_evaluation :
    ∀ (g : Game) (cid : String),
      ((add_to_boat g cid).1.state.is_game_over = g.state.is_game_over ∧
        (add_to_boat g cid).1.state.is_won = g.state.is_won) ∧
      ((remove_from_boat g cid).1.state.is_game_over = g.state.is_game_over ∧
        (remove_from_boat g cid).1.state.is_won = g.state.is_won) ∧
      (∀ e, (travel g).2 = some e → (travel g).1 = g) ∧
      ((travel g).2 = none →
        (is_current_state_safe (travel g).1.state = false →
          (travel g).1.state.is_game_over = true ∧
            (travel g).1.state.is_won = false) ∧
        (is_current_state_safe (travel g).1.state = true →
          (travel g).1.state.missionaries_left = 0 →
          (travel g).1.state.cannibals_left = 0 →
          (travel g).1.state.boat_crew = [] →
          (travel g).1.state.is_game_over = true ∧
            (travel g).1.state.is_won = true) ∧
        (is_current_state_safe (travel g).1.state = true →
          ¬((travel g).1.state.missionaries_left = 0 ∧
              (travel g).1.state.cannibals_left = 0 ∧
              (travel g).1.state.boat_crew = []) →
          (travel g).1.state.is_game_over = false ∧
            (travel g).1.state.is_won = g.state.is_won)) := by
  intro g cid
  refine ⟨?_, ?_, ?_, ?_⟩
  · cases hc : can_add_to_boat g cid with
    | some e => unfold add_to_boat; rw [hc]; exact ⟨rfl, rfl⟩
    | none =>
        obtain ⟨-, ch, hch, -⟩ := (can_add_none_iff g cid).mp hc
        rw [add_to_boat_success_eq g cid ch hc hch]
        have h := decBank_fields
          { g.state with boat_crew := g.state.boat_crew ++ [cid] }
          g.state.boat_side ch.type
        exact ⟨h.2.2.2.2.1, h.2.2.2.2.2.1⟩
  · cases hc : can_remove_from_boat g cid with
    | some e => unfold remove_from_boat; rw [hc]; exact ⟨rfl, rfl⟩
    | none =>
        cases hch : get_character g cid with
        | none => unfold remove_from_boat; rw [hc, hch]; exact ⟨rfl, rfl⟩
        | some ch =>
            rw [remove_from_boat_success_eq g cid ch hc hch]
            have h := incBank_fields
              { g.state with boat_crew := g.state.boat_crew.erase cid }
              g.state.boat_side ch.type
            exact ⟨h.2.2.2.2.1, h.2.2.2.2.2.1⟩
  · intro e he
    have hc : can_travel g = some e := by
      cases hc : can_travel g with
      | none => rw [(travel_snd_eq_none_iff g).mpr hc] at he; exact absurd he (by simp)
      | some e2 =>
          rw [travel_failure_eq g e2 hc] at he
          simp only [Option.some.injEq] at he
          rw [← he]
    rw [travel_failure_eq g e hc]
  · intro hsucc
    have hc : can_travel g = none := (travel_snd_eq_none_iff g).mp hsucc
    obtain ⟨hgo, -, -⟩ := (can_travel_none_iff g).mp hc
    rw [travel_success_state g hc]
    set s2 : GameState :=
      { (g.state.boat_crew.foldl (movePassenger (flipSide g.state.boat_side))
          (g.characters,
            { g.state with boat_side := flipSide g.state.boat_side })).2 with
        boat_crew := []
        move_count := g.state.move_count + 1 } with hs2
    have hflags := foldl_movePassenger_fields g.state.boat_crew
      (flipSide g.state.boat_side) g.characters
      { g.state with boat_side := flipSide g.state.boat_side }
    have hgo2 : s2.is_game_over = false := by
      rw [hs2]
      exact hflags.2.2.2.2.1.trans hgo
    have hwon2 : s2.is_won = g.state.is_won := by
      rw [hs2]
      exact hflags.2.2.2.2.2.1
    have hcrew2 : s2.boat_crew = [] := rfl
    obtain ⟨f1, f2, f3, f4, f5, f6, f7⟩ := check_game_status_fields s2
    obtain ⟨b1, b2, b3⟩ := check_game_status_flags s2
    rw [is_current_state_safe_check]
    refine ⟨fun hunsafe => b1 hunsafe, ?_, ?_⟩
    · intro hsafe hml hcl _
      rw [f1] at hml
      rw [f2] at hcl
      exact b2 hsafe hml hcl (by rw [hcrew2]; rfl)
    · intro hsafe hcond
      rw [f1, f2, f6, hcrew2] at hcond
      have hncond : ¬(s2.missionaries_left = 0 ∧ s2.cannibals_left = 0 ∧
          s2.boat_crew.length = 0) := by
        rintro ⟨x1, x2, -⟩
        exact hcond ⟨x1, x2, rfl⟩
      obtain ⟨e1, e2⟩ := b3 hsafe hncond
      exact ⟨e1.trans hgo2, e2.trans hwon2⟩

/-- Witness for C2 on three concrete crossings: one losing, one winning,
one that stays active. -/
theorem terminal_evaluation_witness :
    (travel gLost).2 = none ∧
      (travel gLost).1.state.is_game_over = true ∧
      (travel gLost).1.state.is_won = false ∧
      (travel gWin).1.state.is_game_over = true ∧
      (travel gWin).1.state.is_won = true ∧
      (travel gAct).1.state.is_game_over = false := by
  have hL := (terminal_evaluation gLost "M1").2.2.2 (by decide)
  have hW := (terminal_evaluation gWin "M1").2.2.2 (by decide)
  have hA := (terminal_evaluation gAct "M1").2.2.2 (by decide)
  obtain ⟨hL1, hL2⟩ := hL.1 (by decide)
  obtain ⟨hW1, hW2⟩ := hW.2.1 (by decide) (by decide) (by decide) (by decide)
  obtain ⟨hA1, -⟩ := hA.2.2 (by decide) (by decide)
  exact ⟨by decide, hL1, hL2, hW1, hW2, hA1⟩

/-! ## Claim C10: `remove_from_boat` undoes a successful `add_to_boat` -/

/-- C10: if the engine is not terminal and `add_to_boat(id)` succeeds, then
an immediately following `remove_from_boat(id)` succeeds and restores the
exact previous game value — same bank counts, crew, boat side, characters,
move counter, flags and move history. -/
theorem add_remove_roundtrip :
    ∀ (g : Game) (cid : String), g.state.is_game_over = false →
      (add_to_boat g cid).2 = none →
      remove_from_boat (add_to_boat g cid).1 cid = (g, none) := by
  intro g cid hgo hadd
  have hc : can_add_to_boat g cid = none :=
    (add_to_boat_snd_eq_none_iff g cid).mp hadd
  obtain ⟨-, ch, hch, hloc, hlen, hmem⟩ := (can_add_none_iff g cid).mp hc
  obtain ⟨chid, chty, chloc⟩ := ch
  obtain ⟨⟨ml, cl, mr, cr, bs, crew, cap, tm, tc, mc, go, won⟩, chars, hist⟩ := g
  simp only at hgo hloc hlen hmem hch
  rw [add_to_boat_success_eq _ cid _ hc hch]
  have hfind : chars.find? (fun c => c.id == cid) = some ⟨chid, chty, chloc⟩ :=
    hch
  have herase : (crew ++ [cid]).erase cid = crew := by
    rw [List.erase_append_right _ hmem, List.erase_cons_head, List.append_nil]
  have hset : setLocation chars cid bs = chars :=
    setLocation_of_location_eq chars cid bs _ hfind hloc
  have hfind1 :
      (setLocation chars cid bs).find? (fun c => c.id == cid) =
        some ⟨chid, chty, bs⟩ :=
    find?_setLocation_self chars cid bs _ hfind
  subst hgo
  cases bs <;> cases chty <;>
    · rw [remove_from_boat_success_eq _ cid _
        (by rw [can_remove_none_iff]; simp [decBank]) (by simpa [decBank, get_character] using hfind1)]
      simp_all [decBank, incBank, setLocation_setLocation]

/-! ## Claim C9: level advance and progress saving -/

/-- C9: when the river challenge is completed the controller advances the
current level by one, wrapping to level 0 after the last level; it issues
exactly one `save_progress` call, and only when the new index exceeds the
previously recorded highest (in which case that new index is recorded); and
the value read once from `load_progress` at construction selects
`min(loaded, level_count - 1)` as the initial level. -/
theorem controller_level_advance :
    ∀ (s : ControllerState) (loaded : Nat),
      ((on_river_complete s).1.current_level =
        if s.current_level < get_level_count - 1 then s.current_level + 1
        else 0) ∧
      ((on_river_complete s).2 =
        if s.highest_level_completed < s.current_level + 1 then
          [s.current_level + 1]
        else []) ∧
      ((on_river_complete s).1.highest_level_completed =
        if s.highest_level_completed < s.current_level + 1 then
          s.current_level + 1
        else s.highest_level_completed) ∧
      (init_controller loaded).current_level =
        min loaded (get_level_count - 1) ∧
      (init_controller loaded).highest_level_completed = loaded := by
  intro s loaded
  have hcount : get_level_count = 3 := rfl
  refine ⟨?_, ?_, ?_, ?_, ?_⟩
  all_goals
    first
      | (unfold on_river_complete load_level
         simp only [hcount]
         split_ifs <;> simp_all <;> omega)
      | (unfold init_controller load_level
         simp only [hcount]
         split_ifs <;> simp_all)

/-! ## Claim C6: missing assignments are reported first -/

lemma lookupDigit_eq_none_iff (g : Assignment) (l : Char) :
    lookupDigit g l = none ↔ l ∉ keysOf g := by
  unfold lookupDigit keysOf
  simp only [Option.map_eq_none', List.find?_eq_none, beq_iff_eq,
    List.mem_map]
  constructor
  · rintro h ⟨p, hp, rfl⟩
    exact h p hp rfl
  · intro h p hp hpe
    exact h ⟨p, hp, hpe⟩

/-- C6: for a candidate assignment within the data model (dict keys are
distinct and form a subset of the unique letters), any unassigned unique
letter makes `validate_input` return the missing-assignment failure naming
the missing letters, before the uniqueness, leading-zero and arithmetic
rules are even considered (the hypotheses allow duplicate digits and
leading zeros). -/
theorem validator_missing_assignment_first :
    ∀ (words : List Word) (letters : List Char) (g : Assignment) (l : Char),
      letters.Nodup → (keysOf g).Nodup → (∀ x ∈ keysOf g, x ∈ letters) →
      l ∈ letters → lookupDigit g l = none →
      validate_input words letters g =
        some (ValidationError.missingAssignment (missing_letters letters g)) ∧
      l ∈ missing_letters letters g := by
  intro words letters g l hln hkn hsub hl hnone
  have hlk : l ∉ keysOf g := (lookupDigit_eq_none_iff g l).mp hnone
  have hlen : g.length < letters.length := by
    have hkeys : (keysOf g).length = g.length := by simp [keysOf]
    rw [← hkeys]
    have hsub2 : keysOf g ⊆ letters.erase l := by
      intro x hx
      have hxl : x ≠ l := fun he => hlk (he ▸ hx)
      exact (List.mem_erase_of_ne hxl).mpr (hsub x hx)
    have h1 : (keysOf g).length ≤ (letters.erase l).length :=
      (List.subperm_of_subset hkn hsub2).length_le
    have h2 : (letters.erase l).length = letters.length - 1 :=
      List.length_erase_of_mem hl
    have h3 : 0 < letters.length := List.length_pos_of_mem hl
    omega
  have hmem : l ∈ missing_letters letters g := by
    unfold missing_letters
    rw [List.mem_dedup, List.mem_filter]
    refine ⟨hl, ?_⟩
    simpa using hlk
  refine ⟨?_, hmem⟩
  unfold validate_input
  rw [if_pos (by omega : g.length ≠ letters.length),
    if_pos (List.ne_nil_of_mem hmem)]

/-- Witness for C6: `C` is unassigned while the assignment also has a
duplicated digit and maps the leading letter `A` to zero — the missing
assignment is still what is reported. -/
theorem validator_missing_assignment_first_witness :
    validate_input [['A', 'B'], ['A'], ['C']] ['A', 'B', 'C']
        [('A', 0), ('B', 0)] =
      some (ValidationError.missingAssignment ['C']) ∧
      lookupDigit [('A', 0), ('B', 0)] 'C' = none := by
  have h := validator_missing_assignment_first [['A', 'B'], ['A'], ['C']]
    ['A', 'B', 'C'] [('A', 0), ('B', 0)] 'C' (by decide) (by decide)
    (by decide) (by decide) (by decide)
  refine ⟨?_, by decide⟩
  have hms : missing_letters ['A', 'B', 'C'] [('A', 0), ('B', 0)] = ['C'] := by
    decide
  rw [← hms]
  exact h.1

/-! ## Claim C7: leading-zero reporting -/

/-- Counterexample to C7 as stated: the partial assignment `{A: 0}` maps
the word-leading letter `A` to 0, yet `validate_input` reports the missing
assignment for `B` — not a `LeadingZero` failure — because the completeness
rule is decided first. -/
theorem leading_zero_claim_counterexample :
    lookupDigit [('A', 0)] 'A' = some 0 ∧
      validate_input [['A'], ['A'], ['B']] ['A', 'B'] [('A', 0)] =
        some (ValidationError.missingAssignment ['B']) ∧
      isLeadingZero
        (validate_input [['A'], ['A'], ['B']] ['A', 'B'] [('A', 0)]) =
        false := by
  decide

lemma leadingZeroLetter_cons_nil (g : Assignment) (rest : List Word) :
    leadingZeroLetter g ([] :: rest) = leadingZeroLetter g rest := rfl

lemma leadingZeroLetter_cons_cons (g : Assignment) (l0 : Char) (t0 : List Char)
    (rest : List Word) :
    leadingZeroLetter g ((l0 :: t0) :: rest) =
      if lookupDigit g l0 == some 0 then some l0
      else leadingZeroLetter g rest := rfl

lemma leadingZeroLetter_some_of_exists (g : Assignment) :
    ∀ (words : List Word) (w : Word) (l : Char) (t : List Char),
      w ∈ words → w = l :: t → lookupDigit g l = some 0 →
      ∃ l2, leadingZeroLetter g words = some l2 ∧
        lookupDigit g l2 = some 0 ∧ ∃ w2 ∈ words, ∃ t2, w2 = l2 :: t2 := by
  intro words
  induction words with
  | nil => intro w l t hmem; simp at hmem
  | cons w0 rest ih =>
      intro w l t hmem hw h0
      cases w0 with
      | nil =>
          rw [leadingZeroLetter_cons_nil]
          rcases List.mem_cons.mp hmem with h1 | h1
          · rw [hw] at h1; simp at h1
          · obtain ⟨l2, ha, hb, w2, hw2, t2, ht2⟩ := ih w l t h1 hw h0
            exact ⟨l2, ha, hb, w2, List.mem_cons_of_mem _ hw2, t2, ht2⟩
      | cons l0 t0 =>
          rw [leadingZeroLetter_cons_cons]
          by_cases h00 : lookupDigit g l0 = some 0
          · refine ⟨l0, by simp [h00], h00,
              l0 :: t0, List.mem_cons_self _ _, t0, rfl⟩
          · have h00b : (lookupDigit g l0 == some 0) = false := by
              simpa using h00
            rw [h00b, if_neg (by simp)]
            rcases List.mem_cons.mp hmem with h1 | h1
            · exfalso
              rw [hw] at h1
              injection h1 with h1a h1b
              exact h00 (h1a ▸ h0)
            · obtain ⟨l2, ha, hb, w2, hw2, t2, ht2⟩ := ih w l t h1 hw h0
              exact ⟨l2, ha, hb, w2, List.mem_cons_of_mem _ hw2, t2, ht2⟩

/-- C7 amended: for a **complete** candidate assignment (every unique
letter assigned, keys a subset of the unique letters, pairwise-distinct
digits — the data-model invariant), a word-leading letter mapped to 0 makes
`validate_input` return a `LeadingZero` failure for a word-leading letter
mapped to 0, regardless of whether the arithmetic equation would hold.  (As
frozen, the claim also covers partial assignments, on which the
completeness rule wins; see the counterexample.) -/
theorem leading_zero_on_complete_assignment :
    ∀ (words : List Word) (letters : List Char) (g : Assignment)
      (w : Word) (l : Char) (t : List Char),
      letters.Nodup → (keysOf g).Nodup →
      (∀ x ∈ keysOf g, x ∈ letters) → (∀ x ∈ letters, x ∈ keysOf g) →
      (g.map Prod.snd).Nodup →
      w ∈ words → w = l :: t → lookupDigit g l = some 0 →
      ∃ l2, validate_input words letters g =
          some (ValidationError.leadingZero l2) ∧
        lookupDigit g l2 = some 0 ∧ ∃ w2 ∈ words, ∃ t2, w2 = l2 :: t2 := by
  intro words letters g w l t hln hkn hsub1 hsub2 hdn hmem hw h0
  have hlen : g.length = letters.length := by
    have hkeys : (keysOf g).length = g.length := by simp [keysOf]
    have h1 : (keysOf g).length ≤ letters.length :=
      (List.subperm_of_subset hkn hsub1).length_le
    have h2 : letters.length ≤ (keysOf g).length :=
      (List.subperm_of_subset hln hsub2).length_le
    omega
  obtain ⟨l2, ha, hb, hw2⟩ :=
    leadingZeroLetter_some_of_exists g words w l t hmem hw h0
  refine ⟨l2, ?_, hb, hw2⟩
  unfold validate_input
  rw [if_neg (by omega : ¬g.length ≠ letters.length)]
  unfold validate_rest
  rw [if_neg ?hdup]
  case hdup =>
    rw [List.dedup_eq_self.mpr hdn]
    exact fun h => h rfl
  rw [ha]

/-- Witness for C7 (amended): a complete assignment under which the
arithmetic would be correct (`5 + 0 = 5`) still fails with `LeadingZero`. -/
theorem leading_zero_on_complete_assignment_witness :
    validate_input [['B'], ['A'], ['B']] ['A', 'B'] [('A', 0), ('B', 5)] =
      some (ValidationError.leadingZero 'A') ∧
      mathOk [['B'], ['A'], ['B']] [('A', 0), ('B', 5)] = true := by
  obtain ⟨l2, h1, -, -⟩ := leading_zero_on_complete_assignment
    [['B'], ['A'], ['B']] ['A', 'B'] [('A', 0), ('B', 5)] ['A'] 'A' []
    (by decide) (by decide) (by decide) (by decide) (by decide)
    (by simp) rfl (by decide)
  have hv : validate_input [['B'], ['A'], ['B']] ['A', 'B']
      [('A', 0), ('B', 5)] = some (ValidationError.leadingZero 'A') := by
    decide
  exact ⟨hv, by decide⟩

/-! ## Claim C8: the solution cache -/

/-- Counterexample to C8 as stated: after solving puzzle `A+B=C` its result
is cached, but solving a different puzzle `A+A=B` in between clears the
cache (`solve_puzzle` calls `set_puzzle`, which resets `solution_cache` to
`{}`), so the repeated query of the first puzzle no longer finds a cache
entry and recomputes. -/
theorem solve_cache_cleared_counterexample :
    cache_has
        (solve_puzzle_cached ⟨none, []⟩ [['A'], ['B'], ['C']]
          ['A', 'B', 'C']).1
        [['A'], ['B'], ['C']] ['A', 'B', 'C'] = true ∧
      cache_has
        (solve_puzzle_cached
          (solve_puzzle_cached ⟨none, []⟩ [['A'], ['B'], ['C']]
            ['A', 'B', 'C']).1
          [['A'], ['A'], ['B']] ['A', 'B']).1
        [['A'], ['B'], ['C']] ['A', 'B', 'C'] = false := by
  decide

/-- C8 amended: the solver caches results keyed by the
(words, unique_letters) tuple, and a repeated `solve_puzzle` query of the
same puzzle with **no intervening query of a different puzzle** finds the
cache entry and returns the identical result with the solver state
untouched.  (An intervening different puzzle clears the cache; see the
counterexample.) -/
theorem solve_repeat_cached :
    ∀ (s : CryptarithmeticSolver) (words : List Word) (letters : List Char),
      cache_has (solve_puzzle_cached s words letters).1 words letters =
        true ∧
      solve_puzzle_cached (solve_puzzle_cached s words letters).1 words
          letters =
        solve_puzzle_cached s words letters := by
  intro s words letters
  unfold cache_has solve_puzzle_cached
  cases h : cacheLookup s.solution_cache (puzzle_key words letters) with
  | some r => simp [h]
  | none =>
      simp only [h]
      unfold set_puzzle cacheInsert cacheLookup
      simp

/-- Witness for C10 on the fresh 3M/3C capacity-2 game and `M1`. -/
theorem add_remove_roundtrip_witness :
    (initialize_game 3 3 2).state.is_game_over = false ∧
      (add_to_boat (initialize_game 3 3 2) "M1").2 = none ∧
      remove_from_boat (add_to_boat (initialize_game 3 3 2) "M1").1 "M1" =
        (initialize_game 3 3 2, none) := by
  refine ⟨by decide, by decide, ?_⟩
  exact add_remove_roundtrip (initialize_game 3 3 2) "M1" (by decide)
    (by decide)

/-! ## Claim C4: the backtracking solver -/

lemma findSome?_eq_some_elim (f : Nat → Option Assignment) (a : Assignment) :
    ∀ (l : List Nat), l.findSome? f = some a → ∃ d ∈ l, f d = some a := by
  intro l
  induction l with
  | nil => intro h; simp at h
  | cons x xs ih =>
      intro h
      rw [List.findSome?_cons] at h
      cases hx : f x with
      | some b =>
          rw [hx] at h
          exact ⟨x, List.mem_cons_self _ _, hx.trans h⟩
      | none =>
          rw [hx] at h
          obtain ⟨d, hd, hfd⟩ := ih h
          exact ⟨d, List.mem_cons_of_mem _ hd, hfd⟩

lemma findSome?_ne_none_of_mem (f : Nat → Option Assignment) (d : Nat)
    (hf : f d ≠ none) :
    ∀ (l : List Nat), d ∈ l → l.findSome? f ≠ none := by
  intro l
  induction l with
  | nil => intro h; simp at h
  | cons x xs ih =>
      intro hd
      rw [List.findSome?_cons]
      cases hx : f x with
      | some b => simp
      | none =>
          rcases List.mem_cons.mp hd with h1 | h1
          · exact absurd (h1 ▸ hx) hf
          · exact ih h1

lemma backtrack_sound :
    ∀ (remaining : List Char) (asg : Assignment) (used : List Nat)
      (leading : List Char) (words : List Word) (a : Assignment),
      backtrack_solve remaining asg used leading words = some a →
      used = asg.map Prod.snd →
      (∀ p ∈ asg, p.2 ≤ 9) →
      (asg.map Prod.snd).Nodup →
      (∀ p ∈ asg, p.1 ∈ leading → p.2 ≠ 0) →
      a.map Prod.fst = asg.map Prod.fst ++ remaining ∧
      (∀ p ∈ a, p.2 ≤ 9) ∧ (a.map Prod.snd).Nodup ∧
      (∀ p ∈ a, p.1 ∈ leading → p.2 ≠ 0) ∧
      mathOk words a = true := by
  intro remaining
  induction remaining with
  | nil =>
      intro asg used leading words a h hused h9 hnd hlz
      unfold backtrack_solve at h
      by_cases hm : mathOk words asg = true
      · rw [if_pos hm] at h
        cases h
        exact ⟨by simp, h9, hnd, hlz, hm⟩
      · rw [if_neg hm] at h
        simp at h
  | cons letter rest ih =>
      intro asg used leading words a h hused h9 hnd hlz
      unfold backtrack_solve at h
      obtain ⟨d, hd, hfd⟩ := findSome?_eq_some_elim _ a _ h
      by_cases hskip : d ∈ used ∨ (letter ∈ leading ∧ d = 0)
      · rw [if_pos hskip] at hfd
        simp at hfd
      · rw [if_neg hskip] at hfd
        push_neg at hskip
        obtain ⟨hdu, hdl⟩ := hskip
        have hd9 : d ≤ 9 := by
          have := List.mem_range.mp hd
          omega
        have hdmem : d ∉ asg.map Prod.snd := hused ▸ hdu
        obtain ⟨c1, c2, c3, c4, c5⟩ := ih (asg ++ [(letter, d)]) (used ++ [d])
          leading words a hfd
          (by rw [hused]; simp)
          (by
            intro p hp
            rcases List.mem_append.mp hp with h1 | h1
            · exact h9 p h1
            · rw [List.mem_singleton] at h1
              rw [h1]
              exact hd9)
          (by
            rw [List.map_append]
            rw [List.nodup_append]
            refine ⟨hnd, by simp, ?_⟩
            intro x hx hx2
            simp at hx2
            rw [hx2] at hx
            exact hdmem hx)
          (by
            intro p hp hpl
            rcases List.mem_append.mp hp with h1 | h1
            · exact hlz p h1 hpl
            · rw [List.mem_singleton] at h1
              rw [h1] at hpl ⊢
              exact hdl hpl)
        refine ⟨?_, c2, c3, c4, c5⟩
        rw [c1]
        simp

lemma backtrack_complete :
    ∀ (remaining : List Char) (asg : Assignment) (used : List Nat)
      (leading : List Char) (words : List Word) (ext : Assignment),
      ext.map Prod.fst = remaining →
      (used ++ ext.map Prod.snd).Nodup →
      (∀ p ∈ ext, p.2 ≤ 9) →
      (∀ p ∈ ext, p.1 ∈ leading → p.2 ≠ 0) →
      mathOk words (asg ++ ext) = true →
      backtrack_solve remaining asg used leading words ≠ none := by
  intro remaining
  induction remaining with
  | nil =>
      intro asg used leading words ext hfst hnd h9 hlz hmath
      have hext : ext = [] := List.map_eq_nil_iff.mp hfst
      rw [hext, List.append_nil] at hmath
      unfold backtrack_solve
      rw [if_pos hmath]
      simp
  | cons letter rest ih =>
      intro asg used leading words ext hfst hnd h9 hlz hmath
      cases ext with
      | nil => simp at hfst
      | cons p e2 =>
          obtain ⟨pl, dv⟩ := p
          rw [List.map_cons] at hfst
          injection hfst with hpl hrest
          simp only at hpl
          subst hpl
          unfold backtrack_solve
          apply findSome?_ne_none_of_mem _ dv
          case hf =>
            have hdvu : dv ∉ used := by
              intro hmem
              rw [List.nodup_append] at hnd
              exact hnd.2.2 hmem (by simp)
            have hdvlz : ¬(pl ∈ leading ∧ dv = 0) := by
              rintro ⟨hlead, hdv0⟩
              exact hlz (pl, dv) (List.mem_cons_self _ _) hlead hdv0
            rw [if_neg (by tauto)]
            apply ih (asg ++ [(pl, dv)]) (used ++ [dv]) leading words e2
              hrest
            · rw [List.append_assoc, List.singleton_append]
              simpa using hnd
            · intro q hq
              exact h9 q (List.mem_cons_of_mem _ hq)
            · intro q hq hql
              exact hlz q (List.mem_cons_of_mem _ hq) hql
            · rw [List.append_assoc, List.singleton_append]
              exact hmath
          case a =>
            rw [List.mem_range]
            have := h9 (pl, dv) (List.mem_cons_self _ _)
            simp at this
            omega

lemma lookupDigit_of_mem :
    ∀ (g : Assignment), (g.map Prod.fst).Nodup →
      ∀ p ∈ g, lookupDigit g p.1 = some p.2 := by
  intro g
  induction g with
  | nil => intro _ p hp; simp at hp
  | cons q tail ih =>
      intro hnd p hp
      rw [List.map_cons, List.nodup_cons] at hnd
      obtain ⟨hq, hnd2⟩ := hnd
      rcases List.mem_cons.mp hp with h1 | h1
      · rw [h1]
        unfold lookupDigit
        rw [List.find?_cons_of_pos _ (by simp)]
        rfl
      · by_cases he : q.1 = p.1
        · exfalso
          apply hq
          rw [he]
          exact List.mem_map.mpr ⟨p, h1, rfl⟩
        · unfold lookupDigit
          rw [List.find?_cons_of_neg _ (by simpa using he)]
          exact ih hnd2 p h1

lemma leadingZeroLetter_eq_none_iff (g : Assignment) :
    ∀ (words : List Word),
      leadingZeroLetter g words = none ↔
        ∀ w ∈ words, ∀ l t, w = l :: t → lookupDigit g l ≠ some 0 := by
  intro words
  induction words with
  | nil => simp [leadingZeroLetter]
  | cons w0 rest ih =>
      cases w0 with
      | nil =>
          rw [leadingZeroLetter_cons_nil, ih]
          constructor
          · intro h w hw l t hwlt
            rcases List.mem_cons.mp hw with h1 | h1
            · rw [h1] at hwlt
              simp at hwlt
            · exact h w h1 l t hwlt
          · intro h w hw l t hwlt
            exact h w (List.mem_cons_of_mem _ hw) l t hwlt
      | cons l0 t0 =>
          rw [leadingZeroLetter_cons_cons]
          by_cases h00 : lookupDigit g l0 = some 0
          · rw [if_pos (by simp [h00])]
            constructor
            · intro h; simp at h
            · intro h
              exact absurd h00 (h (l0 :: t0) (List.mem_cons_self _ _) l0 t0 rfl)
          · rw [if_neg (by simpa using h00), ih]
            constructor
            · intro h w hw l t hwlt
              rcases List.mem_cons.mp hw with h1 | h1
              · rw [h1] at hwlt
                injection hwlt with ha hb
                rw [← ha]
                exact h00
              · exact h w h1 l t hwlt
            · intro h w hw l t hwlt
              exact h w (List.mem_cons_of_mem _ hw) l t hwlt

lemma no_leading_zero_lookup (words : List Word) (a : Assignment)
    (hlz : ∀ p ∈ a, p.1 ∈ leading_letters words → p.2 ≠ 0) :
    ∀ w ∈ words, ∀ l t, w = l :: t → lookupDigit a l ≠ some 0 := by
  intro w hw l t hwlt hsome
  unfold lookupDigit at hsome
  cases hf : a.find? (fun p => p.1 == l) with
  | none => rw [hf] at hsome; simp at hsome
  | some p =>
      rw [hf] at hsome
      simp at hsome
      have hpmem := List.mem_of_find?_eq_some hf
      have hpl : p.1 = l := by simpa using List.find?_some hf
      have hlead : p.1 ∈ leading_letters words := by
        unfold leading_letters
        refine List.mem_filterMap.mpr ⟨w, hw, ?_⟩
        rw [hwlt, hpl]
        rfl
      exact hlz p hpmem hlead hsome

lemma ext_no_leading_zero (words : List Word) (ext : Assignment)
    (hkn : (ext.map Prod.fst).Nodup)
    (hnone : leadingZeroLetter ext words = none) :
    ∀ p ∈ ext, p.1 ∈ leading_letters words → p.2 ≠ 0 := by
  intro p hp hlead hp0
  unfold leading_letters at hlead
  obtain ⟨w, hw, hhead⟩ := List.mem_filterMap.mp hlead
  cases w with
  | nil => simp at hhead
  | cons l0 t0 =>
      simp only [List.head?_cons, Option.some.injEq] at hhead
      have := (leadingZeroLetter_eq_none_iff ext words).mp hnone
        (l0 :: t0) hw l0 t0 rfl
      apply this
      rw [hhead, lookupDigit_of_mem ext hkn p hp, hp0]

lemma validate_input_of_solution (words : List Word) (letters : List Char)
    (a : Assignment)
    (hfst : a.map Prod.fst = letters)
    (hnd : (a.map Prod.snd).Nodup)
    (hlz : ∀ w ∈ words, ∀ l t, w = l :: t → lookupDigit a l ≠ some 0)
    (hmath : mathOk words a = true) :
    validate_input words letters a = none := by
  have hlen : a.length = letters.length := by
    rw [← hfst]
    simp
  unfold validate_input
  rw [if_neg (by omega : ¬a.length ≠ letters.length)]
  unfold validate_rest
  rw [if_neg (by rw [List.dedup_eq_self.mpr hnd]; exact fun h => h rfl)]
  rw [(leadingZeroLetter_eq_none_iff a words).mpr hlz]
  unfold mathOk at hmath
  cases hv : verify_mathematics words a with
  | error e =>
      rw [hv] at hmath
      simp at hmath
  | ok n => rfl

lemma validate_input_none_elim (words : List Word) (letters : List Char)
    (ext : Assignment)
    (hfst : ext.map Prod.fst = letters)
    (h : validate_input words letters ext = none) :
    (ext.map Prod.snd).Nodup ∧ leadingZeroLetter ext words = none ∧
      mathOk words ext = true := by
  have hlen : ext.length = letters.length := by
    rw [← hfst]
    simp
  unfold validate_input at h
  rw [if_neg (by omega : ¬ext.length ≠ letters.length)] at h
  unfold validate_rest at h
  by_cases hdup : (ext.map Prod.snd).dedup.length ≠ (ext.map Prod.snd).length
  · rw [if_pos hdup] at h
    simp at h
  · rw [if_neg hdup] at h
    push_neg at hdup
    have hnd : (ext.map Prod.snd).Nodup := by
      have hsub := List.dedup_sublist (ext.map Prod.snd)
      have heq := hsub.eq_of_length hdup
      rw [← heq]
      exact List.nodup_dedup _
    cases hl : leadingZeroLetter ext words with
    | some l => rw [hl] at h; simp at h
    | none =>
        rw [hl] at h
        cases hv : verify_mathematics words ext with
        | error e => rw [hv] at h; simp at h
        | ok n =>
            refine ⟨hnd, rfl, ?_⟩
            unfold mathOk
            rw [hv]

/-- C4: for every puzzle spec with a duplicate-free unique-letter list, the
solver is a total function (so it terminates), and: whenever it returns an
assignment, that assignment is total on the unique letters (its keys are
exactly the letter list), uses only digits 0–9, pairwise distinct, maps no
word-leading letter to 0, satisfies `operand1 + operand2 = result`, and is
accepted by the validator; and it returns `None` only when no
letter-to-digit assignment on the unique letters is accepted by the
validator. -/
theorem solver_sound_and_complete :
    ∀ (words : List Word) (letters : List Char), letters.Nodup →
      (∀ a, solve_puzzle words letters = some a →
        a.map Prod.fst = letters ∧
        (∀ p ∈ a, p.2 ≤ 9) ∧
        (a.map Prod.snd).Nodup ∧
        (∀ w ∈ words, ∀ l t, w = l :: t → lookupDigit a l ≠ some 0) ∧
        mathOk words a = true ∧
        validate_input words letters a = none) ∧
      (solve_puzzle words letters = none →
        ∀ ext, ext.map Prod.fst = letters → (∀ p ∈ ext, p.2 ≤ 9) →
          validate_input words letters ext ≠ none) := by
  intro words letters hln
  constructor
  · intro a ha
    unfold solve_puzzle at ha
    obtain ⟨c1, c2, c3, c4, c5⟩ := backtrack_sound letters []
      [] (leading_letters words) words a ha rfl (by simp) (by simp) (by simp)
    simp only [List.map_nil, List.nil_append] at c1
    have hlz := no_leading_zero_lookup words a c4
    exact ⟨c1, c2, c3, hlz, c5,
      validate_input_of_solution words letters a c1 c3 hlz c5⟩
  · intro hnone ext hfst h9 hval
    obtain ⟨hnd, hlznone, hmath⟩ :=
      validate_input_none_elim words letters ext hfst hval
    have hkn : (ext.map Prod.fst).Nodup := hfst ▸ hln
    have hlz := ext_no_leading_zero words ext hkn hlznone
    have hne := backtrack_complete letters [] [] (leading_letters words)
      words ext hfst (by simpa using hnd) h9 hlz (by simpa using hmath)
    exact hne hnone

/-- Witness for C4 on the one-letter puzzle `A + B = C`: the solver finds
`A=1, B=2, C=3`, which the validator accepts. -/
theorem solver_sound_and_complete_witness :
    solve_puzzle [['A'], ['B'], ['C']] ['A', 'B', 'C'] =
      some [('A', 1), ('B', 2), ('C', 3)] ∧
      validate_input [['A'], ['B'], ['C']] ['A', 'B', 'C']
        [('A', 1), ('B', 2), ('C', 3)] = none := by
  have hs : solve_puzzle [['A'], ['B'], ['C']] ['A', 'B', 'C'] =
      some [('A', 1), ('B', 2), ('C', 3)] := by decide
  have h := (solver_sound_and_complete [['A'], ['B'], ['C']]
    ['A', 'B', 'C'] (by decide)).1 _ hs
  exact ⟨hs, h.2.2.2.2.2⟩

end CrypticCrossings

namespace CrypticCrossings

example : (initialize_game 3 3 2).characters.length = 6 := by decide

example :
    (add_to_boat (initialize_game 3 3 2) "M1").2 = none := by decide

example :
    (add_to_boat (initialize_game 3 3 2) "X9").2 = some AddError.notFound := by
  decide

example :
    (travel (add_to_boat (initialize_game 2 3 2) "M1").1).1.state.is_game_over
      = true := by decide

end CrypticCrossings
